import Mathlib

/-!
Verification of the confined file server (`server.py`).

Python strings are modelled as Lean `String`s; the string operations the
server relies on (`str.startswith`, `str.split`, `"sep".join`, `str.strip`,
`os.path.join`, `os.path.normpath`, `os.path.dirname`) are embedded below,
computing on the underlying `List Char`, which matches Python's
character-sequence semantics.
-/

set_option maxRecDepth 4000

/-- Python `s.startswith(pre)` on the character lists: `listStarts pre s`
is `true` iff `pre` is a leading segment of `s`. -/
def listStarts : List Char → List Char → Bool
  | [], _ => true
  | _ :: _, [] => false
  | a :: as, b :: bs => a == b && listStarts as bs

/-- Python `s.startswith(pre)`. -/
def pyStartsWith (s pre : String) : Bool :=
  listStarts pre.data s.data

/-- Python `s.endswith(suf)`. -/
def pyEndsWith (s suf : String) : Bool :=
  listStarts suf.data.reverse s.data.reverse

/-- Helper for `splitChar`: prepend a character to the first segment. -/
def consHead (c : Char) : List (List Char) → List (List Char)
  | [] => [[c]]
  | h :: t => (c :: h) :: t

/-- Python `s.split(sep)` for a single-character separator, on character
lists: no collapsing of adjacent separators, and the empty string yields
one empty segment. -/
def splitChar (sep : Char) : List Char → List (List Char)
  | [] => [[]]
  | c :: cs => if c = sep then [] :: splitChar sep cs else consHead c (splitChar sep cs)

/-- Python `sep.join(segments)` for a single-character separator, on
character lists. -/
def joinChar (sep : Char) : List (List Char) → List Char
  | [] => []
  | [x] => x
  | x :: y :: ys => x ++ sep :: joinChar sep (y :: ys)

/-- Python `s.split(sep)` on `String`s. -/
def pySplit (sep : Char) (s : String) : List String :=
  (splitChar sep s.data).map String.mk

/-- Python `sep.join(l)` on `String`s. -/
def pyJoinStr (sep : Char) (l : List String) : String :=
  String.mk (joinChar sep (l.map String.data))

/-- Python `s.strip()` (whitespace on both ends). -/
def pyStrip (s : String) : String :=
  String.mk (((s.data.dropWhile Char.isWhitespace).reverse.dropWhile Char.isWhitespace).reverse)

/-- Drop trailing copies of `c` (Python `s.rstrip(c)`). -/
def rstripChar (c : Char) (l : List Char) : List Char :=
  (l.reverse.dropWhile (fun d => d == c)).reverse

/-- `os.path.join(a, b)` for POSIX paths (server.py joins exactly two
components): an absolute `b` replaces `a`; otherwise a `/` is inserted
unless `a` is empty or already ends with `/`. -/
def posixJoin (a b : String) : String :=
  if pyStartsWith b "/" then b
  else if a = "" || pyEndsWith a "/" then a ++ b
  else a ++ "/" ++ b

/-- One step of `os.path.normpath`'s component loop (CPython
`posixpath.normpath`): skip empty and `.` components, append ordinary
components, and on `..` either append it (when unresolvable) or pop the
previous component. -/
def normStep (initialSlashes : Bool) (acc : List String) (comp : String) : List String :=
  if comp = "" || comp = "." then acc
  else if comp != ".." || (!initialSlashes && acc.isEmpty)
      || (!acc.isEmpty && acc.getLast? == some "..") then
    acc ++ [comp]
  else if !acc.isEmpty then acc.dropLast
  else acc

/-- `os.path.normpath` for POSIX paths (CPython `posixpath.normpath`):
purely lexical normalization collapsing `.` and `//` and resolving `..`,
never touching the filesystem. -/
def normpath (path : String) : String :=
  if path = "" then "."
  else
    let initialSlashes : Nat :=
      if pyStartsWith path "/" then
        if pyStartsWith path "//" && !(pyStartsWith path "///") then 2 else 1
      else 0
    let comps := pySplit '/' path
    let newComps := comps.foldl (normStep (initialSlashes != 0)) []
    let res := String.mk (List.replicate initialSlashes '/') ++ pyJoinStr '/' newComps
    if res = "" then "." else res

/-- `os.path.dirname` for POSIX paths (CPython `posixpath.dirname`):
everything up to the last `/`, with trailing slashes stripped unless the
head is all slashes. -/
def dirname (p : String) : String :=
  let d := p.data
  let after := (d.reverse.takeWhile (fun c => !(c == '/'))).length
  let head := d.take (d.length - after)
  String.mk (if head.isEmpty || head.all (fun c => c == '/') then head else rstripChar '/' head)

/-- `BASE_DIR` (server.py line 20). -/
def BASE_DIR : String := "/data"

/-- The path each tool resolves a caller-supplied relative path to:
`os.path.normpath(os.path.join(BASE_DIR, p))` (server.py lines 79, 112,
137, 161, 205 — the identical expression in all five tools). -/
def confineTarget (p : String) : String :=
  normpath (posixJoin BASE_DIR p)

/-- The confinement check each tool applies to the resolved path:
`target.startswith(BASE_DIR)` (server.py lines 82, 115, 140, 164, 206 —
the identical expression in all five tools). -/
def confineOk (p : String) : Bool :=
  pyStartsWith (confineTarget p) BASE_DIR

/-- A resolved absolute path lies inside the base directory: it is the
base directory itself or strictly below it. This is the spec's notion of
"resolves inside BaseDirectory", used to compare against the code's check. -/
def insideBase (t : String) : Prop :=
  t = BASE_DIR ∨ pyStartsWith t (BASE_DIR ++ "/") = true

instance (t : String) : Decidable (insideBase t) :=
  inferInstanceAs (Decidable (_ ∨ _))

/-! ## Output-line-limit configuration (server.py lines 23–70)

Environment values are strings (or absent); JSON config values are
modelled by `CfgVal`: an integer, a string, or anything else (`null`,
booleans, floats, arrays, objects — for all of which Python's
`int(str(value).strip())` raises and `_parse_positive_int` yields `None`). -/

/-- `DEFAULT_MAX_LINES` (server.py line 23). -/
def DEFAULT_MAX_LINES : Int := 1000

/-- Decimal digit run to a number; `none` when empty or a non-digit occurs. -/
def digitsToNat (l : List Char) : Option Nat :=
  if l.isEmpty then none
  else if l.all Char.isDigit then
    some (l.foldl (fun a c => a * 10 + (c.toNat - 48)) 0)
  else none

/-- Python `int(s)` for an already-stripped string: optional sign followed
by decimal digits (exotic accepted forms such as underscore separators are
not used by this server's configuration and are not modelled). -/
def pyInt (s : String) : Option Int :=
  match s.data with
  | '+' :: ds => (digitsToNat ds).map Int.ofNat
  | '-' :: ds => (digitsToNat ds).map (fun n => -(n : Int))
  | ds => (digitsToNat ds).map Int.ofNat

/-- A loosely-typed configuration value, as `_parse_positive_int` receives
it: a JSON/env integer, a string, or any other value. -/
inductive CfgVal where
  | vint (n : Int)
  | vstr (s : String)
  | vother
deriving DecidableEq

/-- `_parse_positive_int` (server.py lines 25–30): coerce via
`int(str(value).strip())`; positive results survive, everything else
(including parse failures) becomes `None`. For an integer `n`,
`int(str(n).strip()) = n`; for any non-integer non-string value the
coercion raises. -/
def _parse_positive_int : CfgVal → Option Int
  | .vint n => if 0 < n then some n else none
  | .vstr s =>
    match pyInt (pyStrip s) with
    | some n => if 0 < n then some n else none
    | none => none
  | .vother => none

/-- `dict.get` result fed to `_parse_positive_int`: a missing key gives
Python `None`, on which `_parse_positive_int` returns `None`. -/
def parseOptVal : Option CfgVal → Option Int
  | none => none
  | some v => _parse_positive_int v

/-- The `run_command` entry of the config file: a JSON object carrying an
optional `max_lines`, or some non-object value. -/
inductive RCField where
  | dict (max_lines : Option CfgVal)
  | nondict
deriving DecidableEq

/-- The config file as `_load_max_lines_from_config_file` observes it:
absent/unreadable/unparsable (any exception is swallowed), a non-object
top level, or an object with optional `run_command` and `max_lines` keys. -/
inductive CfgFile where
  | absent
  | nondict
  | dict (run_command : Option RCField) (max_lines : Option CfgVal)
deriving DecidableEq

/-- `_load_max_lines_from_config_file` (server.py lines 32–53): prefer a
valid nested `run_command.max_lines`, fall back to a valid top-level
`max_lines`, else `None`. -/
def _load_max_lines_from_config_file : CfgFile → Option Int
  | .absent => none
  | .nondict => none
  | .dict rc ml =>
    match rc with
    | some (.dict mlrc) =>
      match parseOptVal mlrc with
      | some v => some v
      | none => parseOptVal ml
    | _ => parseOptVal ml

/-- `_resolve_max_output_lines` (server.py lines 55–67): env var
`RUN_COMMAND_MAX_LINES`, then env var `MAX_OUTPUT_LINES`, then the config
file, then `DEFAULT_MAX_LINES`. -/
def _resolve_max_output_lines (env1 env2 : Option String) (cfg : CfgFile) : Int :=
  match env1.bind (fun s => _parse_positive_int (.vstr s)) with
  | some v => v
  | none =>
    match env2.bind (fun s => _parse_positive_int (.vstr s)) with
    | some v => v
    | none =>
      match _load_max_lines_from_config_file cfg with
      | some v => v
      | none => DEFAULT_MAX_LINES

/-- The nested `run_command.max_lines` layer, read off the spec's wording
of the resolution chain (for the refinement statement of the chain). -/
def cfgNestedLayer : CfgFile → Option Int
  | .dict (some (.dict mlrc)) _ => parseOptVal mlrc
  | _ => none

/-- The top-level `max_lines` layer, read off the spec's wording of the
resolution chain (for the refinement statement of the chain). -/
def cfgTopLayer : CfgFile → Option Int
  | .dict _ ml => parseOptVal ml
  | _ => none

/-- The ordered layers of the spec's resolution chain: env var A, env var
B, nested config value, top-level config value. A layer is `none` when its
value is missing, malformed, or non-positive. -/
def resolutionLayers (env1 env2 : Option String) (cfg : CfgFile) : List (Option Int) :=
  [env1.bind (fun s => _parse_positive_int (.vstr s)),
   env2.bind (fun s => _parse_positive_int (.vstr s)),
   cfgNestedLayer cfg,
   cfgTopLayer cfg]

/-- First layer that produced a value. -/
def firstValidLayer (l : List (Option Int)) : Option Int :=
  l.foldr (fun o acc => o.orElse (fun _ => acc)) none

/-- The claim's resolution rule, stated from the spec's words: walk the
layers in priority order, skipping missing/malformed/non-positive values,
and default to 1000. To be compared with `_resolve_max_output_lines`. -/
def specResolveMaxLines (env1 env2 : Option String) (cfg : CfgFile) : Int :=
  (firstValidLayer (resolutionLayers env1 env2 cfg)).getD 1000

/-! ## The filesystem model for the file tools

A snapshot of the filesystem: regular files (absolute path, text content)
and directories (absolute paths). The tools look paths up against this
snapshot exactly where the source calls `os.path.isfile`, `os.path.isdir`,
`os.path.exists`, `os.rmdir`, `os.remove`, `os.makedirs`, `open(...)`. -/

structure FS where
  files : List (String × String)
  dirs : List String
deriving DecidableEq

/-- `os.path.isfile p` against the snapshot. -/
def FS.isFile (fs : FS) (p : String) : Bool :=
  fs.files.any (fun e => e.1 == p)

/-- `os.path.isdir p` against the snapshot. -/
def FS.isDir (fs : FS) (p : String) : Bool :=
  fs.dirs.any (fun d => d == p)

/-- `os.path.exists p` against the snapshot. -/
def FS.pathExists (fs : FS) (p : String) : Bool :=
  fs.isFile p || fs.isDir p

/-- The directory `p` has an entry strictly below it; `os.rmdir p` fails
exactly then (directory not empty). -/
def FS.hasChild (fs : FS) (p : String) : Bool :=
  (fs.files.map Prod.fst ++ fs.dirs).any (fun q => pyStartsWith q (p ++ "/"))

/-- The content `open(p).read()` returns, when `p` is a regular file. -/
def FS.lookupFile (fs : FS) (p : String) : Option String :=
  (fs.files.find? (fun e => e.1 == p)).map (fun e => e.2)

/-- Python `repr` of a path as it appears in `str(OSError)` messages. -/
def pyQuote (s : String) : String := "'" ++ s ++ "'"

/-- The chain of directories `os.makedirs(p, exist_ok=True)` walks:
`p`, its parent, and so on, stopping at the filesystem root (which always
exists and is never created). Fuel-indexed; `p.data.length + 1` steps
always suffice because `dirname` shortens its argument. -/
def ancestorsAux : Nat → String → List String
  | 0, _ => []
  | n + 1, p => if p = "/" || p = "" then [] else p :: ancestorsAux n (dirname p)

/-- The directories `os.makedirs(p, exist_ok=True)` ensures exist. -/
def pathAncestors (p : String) : List String :=
  ancestorsAux (p.data.length + 1) p

/-- `list_files` (server.py lines 72–103): the confinement gate, lines
79–83. The directory enumeration below the gate is filesystem I/O over
the resolved target; the gate (the part claim C1 references) returns
`none` for the rejection and `some target` for the directory that is then
listed. -/
def list_files_gate (path : String) : Option String :=
  let target_dir := confineTarget path
  if !(confineOk path) then none
  else some target_dir

/-- `read_file` (server.py lines 105–127): confinement gate, then the
`os.path.isfile` check — a missing file and a directory take the same
branch and produce the same message — then the file's content. -/
def read_file (fs : FS) (file_path : String) : String :=
  if !(confineOk file_path) then
    "Error: Cannot access files outside of the base directory."
  else
    match fs.lookupFile (confineTarget file_path) with
    | some content => content
    | none => "Error: File does not exist or is not a file: " ++ file_path

/-- `write_file` (server.py lines 129–152): confinement gate, then
`os.makedirs(os.path.dirname(target), exist_ok=True)`, then
`open(target, 'w')` (overwrite). `makedirs` fails iff some directory on
the chain exists as a regular file (nothing is created in that case, since
the failing `mkdir` is the first one attempted); `open(..., 'w')` fails if
the target is a directory — by then `makedirs`'s directories persist. Any
failure is caught and reported as an error string. -/
def write_file (fs : FS) (file_path content : String) : FS × String :=
  if !(confineOk file_path) then
    (fs, "Error: Cannot access files outside of the base directory.")
  else
    let target := confineTarget file_path
    let chain := pathAncestors (dirname target)
    if chain.any (fun a => fs.isFile a) then
      (fs, "Error writing to file: [Errno 20] Not a directory: " ++ pyQuote (dirname target))
    else
      let fs1 : FS := { fs with dirs := fs.dirs ++ chain.filter (fun a => !(fs.pathExists a)) }
      if fs1.isDir target then
        (fs1, "Error writing to file: [Errno 21] Is a directory: " ++ pyQuote target)
      else
        ({ fs1 with files := fs1.files.filter (fun e => !(e.1 == target)) ++ [(target, content)] },
         "Successfully wrote to " ++ file_path)

/-- `delete_file` (server.py lines 154–178): confinement gate, then
`os.path.exists` (not-found error), then `os.rmdir` for directories
(which raises on a non-empty directory, caught and reported as an error
string) and `os.remove` for files. -/
def delete_file (fs : FS) (file_path : String) : FS × String :=
  if !(confineOk file_path) then
    (fs, "Error: Cannot access files outside of the base directory.")
  else
    let target := confineTarget file_path
    if !(fs.pathExists target) then
      (fs, "Error: File does not exist: " ++ file_path)
    else if fs.isDir target then
      if fs.hasChild target then
        (fs, "Error deleting file: [Errno 39] Directory not empty: " ++ pyQuote target)
      else
        ({ fs with dirs := fs.dirs.filter (fun d => !(d == target)) },
         "Successfully deleted directory: " ++ file_path)
    else
      ({ fs with files := fs.files.filter (fun e => !(e.1 == target)) },
       "Successfully deleted file: " ++ file_path)

/-! ## run_command (server.py lines 180–317)

The subprocess itself is I/O; its observable behaviour is the `RunOutcome`
parameter: it completed with an exit code and (UTF-8-decoded, replacement
on invalid bytes) output streams, it hit the deadline, or it failed to
start (any exception in the `try` block). Python floats are modelled as
rationals. The result assembly around the outcome is embedded exactly. -/

/-- Outcome of awaiting the spawned subprocess. -/
inductive RunOutcome where
  | completed (exit_code : Int) (stdout_text stderr_text : String)
  | timedOut (partial_stdout partial_stderr : String)
  | spawnFailed (msg : String)
deriving DecidableEq

/-- The JSON object built on the success and timeout paths (server.py
lines 264–276 and 295–307). -/
structure CommandResult where
  stdout : String
  stderr : String
  exit_code : Option Int
  cwd : String
  command : String
  timeout_seconds : Option ℚ
  timed_out : Bool
  truncated : Bool
  stdout_truncated : Bool
  stderr_truncated : Bool
  max_lines : Nat
deriving DecidableEq

/-- The JSON object built when the subprocess could not run (server.py
lines 308–317). -/
structure RunErrorResult where
  error : String
  cwd : String
  command : String
  truncated : Bool
  stdout_truncated : Bool
  stderr_truncated : Bool
  max_lines : Nat
deriving DecidableEq

/-- The three shapes `run_command` returns: the cwd-confinement error
(lines 207–210), the spawn/runtime error (lines 308–317), or a full
result (success or timeout). -/
inductive RCResponse where
  | cwdError (error : String) (cwd : String)
  | runError (e : RunErrorResult)
  | result (r : CommandResult)
deriving DecidableEq

/-- The effective deadline in seconds (server.py lines 213–228): with
neither timeout supplied, 60 seconds; otherwise seconds win over
milliseconds (divided by 1000), and a non-positive resolved value leaves
`timeout_secs = None` — no deadline at all. `_to_float` is the identity
on the already-float-typed arguments. -/
def resolve_timeout_secs (timeout timeout_ms : Option ℚ) : Option ℚ :=
  if timeout.isSome || timeout_ms.isSome then
    let secs : Option ℚ :=
      match timeout with
      | some t => some t
      | none =>
        match timeout_ms with
        | some ms => some (ms / 1000)
        | none => none
    match secs with
    | some s => if 0 < s then some s else none
    | none => none
  else
    some 60

/-- `_truncate_lines` (server.py lines 282–289): empty text passes
through; otherwise split on newline and keep at most `max_lines`
segments. `max_lines` is `MAX_OUTPUT_LINES`, which resolution guarantees
positive, so Python's negative-slice case cannot arise and `Nat` slicing
via `take` is exact. -/
def _truncate_lines (text : String) (max_lines : Nat) : String × Bool :=
  if text = "" then (text, false)
  else
    let lines := pySplit '\n' text
    if lines.length ≤ max_lines then (text, false)
    else (pyJoinStr '\n' (lines.take max_lines), true)

/-- `run_command` (server.py lines 180–317): resolve and confine `cwd`
(short-circuiting on failure before anything is spawned — the response is
the same for every `outcome`), resolve the deadline, then assemble the
response from the subprocess outcome. `MAX_OUTPUT_LINES` is passed in as
`maxOutputLines`. -/
def run_command (maxOutputLines : Nat) (command : String) (stdin : Option String)
    (cwd : String) (timeout timeout_ms : Option ℚ) (outcome : RunOutcome) : RCResponse :=
  if (cwd != "") && !(confineOk cwd) then
    .cwdError "Cannot use cwd outside of the base directory" cwd
  else
    let working_dir := if cwd != "" then confineTarget cwd else BASE_DIR
    let timeout_secs := resolve_timeout_secs timeout timeout_ms
    match outcome with
    | .spawnFailed msg =>
      .runError { error := "Error running command: " ++ msg, cwd := working_dir,
                  command := command, truncated := false, stdout_truncated := false,
                  stderr_truncated := false, max_lines := maxOutputLines }
    | .timedOut _ _ =>
      .result { stdout := "", stderr := "Command timed out", exit_code := none,
                cwd := working_dir, command := command, timeout_seconds := timeout_secs,
                timed_out := true, truncated := false, stdout_truncated := false,
                stderr_truncated := false, max_lines := maxOutputLines }
    | .completed code so se =>
      let st := _truncate_lines so maxOutputLines
      let et := _truncate_lines se maxOutputLines
      .result { stdout := st.1, stderr := et.1, exit_code := some code,
                cwd := working_dir, command := command, timeout_seconds := timeout_secs,
                timed_out := false, truncated := st.2 || et.2, stdout_truncated := st.2,
                stderr_truncated := et.2, max_lines := maxOutputLines }

/-! ## Lemmas about the string primitives -/

theorem consHead_ne_nil (c : Char) (L : List (List Char)) : consHead c L ≠ [] := by
  cases L <;> simp [consHead]

theorem splitChar_ne_nil (sep : Char) (l : List Char) : splitChar sep l ≠ [] := by
  cases l with
  | nil => simp [splitChar]
  | cons c cs =>
    simp only [splitChar]
    split
    · simp
    · exact consHead_ne_nil c _

theorem splitChar_no_sep (sep : Char) (l : List Char) :
    ∀ x ∈ splitChar sep l, sep ∉ x := by
  induction l with
  | nil =>
    intro x hx
    simp only [splitChar, List.mem_singleton] at hx
    simp [hx]
  | cons c cs ih =>
    intro x hx
    simp only [splitChar] at hx
    by_cases hc : c = sep
    · rw [if_pos hc] at hx
      rcases List.mem_cons.mp hx with h | h
      · simp [h]
      · exact ih x h
    · rw [if_neg hc] at hx
      cases hs : splitChar sep cs with
      | nil => exact absurd hs (splitChar_ne_nil sep cs)
      | cons h t =>
        rw [hs] at hx
        simp only [consHead] at hx
        rcases List.mem_cons.mp hx with h1 | h1
        · subst h1
          intro hmem
          rcases List.mem_cons.mp hmem with h2 | h2
          · exact hc h2.symm
          · refine ih h ?_ h2
            rw [hs]
            exact List.mem_cons_self h t
        · refine ih x ?_
          rw [hs]
          exact List.mem_cons_of_mem h h1

theorem splitChar_append_sep (sep : Char) (x r : List Char) (hx : sep ∉ x) :
    splitChar sep (x ++ sep :: r) = x :: splitChar sep r := by
  induction x with
  | nil => simp [splitChar]
  | cons c cs ih =>
    have hc : ¬(c = sep) := by
      intro h
      apply hx
      rw [← h]
      exact List.mem_cons_self c cs
    have hx' : sep ∉ cs := fun hm => hx (List.mem_cons_of_mem c hm)
    have e1 : (c :: cs) ++ sep :: r = c :: (cs ++ sep :: r) := rfl
    rw [e1]
    show (if c = sep then [] :: splitChar sep (cs ++ sep :: r)
      else consHead c (splitChar sep (cs ++ sep :: r))) = _
    rw [if_neg hc, ih hx']
    rfl

theorem splitChar_of_no_sep (sep : Char) (x : List Char) (hx : sep ∉ x) :
    splitChar sep x = [x] := by
  induction x with
  | nil => rfl
  | cons c cs ih =>
    have hc : ¬(c = sep) := by
      intro h
      apply hx
      rw [← h]
      exact List.mem_cons_self c cs
    have hx' : sep ∉ cs := fun hm => hx (List.mem_cons_of_mem c hm)
    simp only [splitChar, if_neg hc, ih hx', consHead]

theorem splitChar_joinChar (sep : Char) (L : List (List Char)) (hL : L ≠ [])
    (hsep : ∀ x ∈ L, sep ∉ x) : splitChar sep (joinChar sep L) = L := by
  induction L with
  | nil => exact absurd rfl hL
  | cons x xs ih =>
    cases xs with
    | nil => exact splitChar_of_no_sep sep x (hsep x (List.mem_cons_self x []))
    | cons y ys =>
      have h1 : joinChar sep (x :: y :: ys) = x ++ sep :: joinChar sep (y :: ys) := rfl
      rw [h1, splitChar_append_sep sep x _ (hsep x (List.mem_cons_self x _)),
        ih (by simp) (fun z hz => hsep z (List.mem_cons_of_mem x hz))]

theorem data_mk_map (L : List (List Char)) : (L.map String.mk).map String.data = L := by
  induction L with
  | nil => rfl
  | cons x xs ih => simp only [List.map_cons, ih]

theorem string_data_eq_nil {s : String} (h : s.data = []) : s = "" := by
  cases s with
  | mk d =>
    cases h
    rfl

theorem pySplit_ne_nil (sep : Char) (s : String) : pySplit sep s ≠ [] := by
  unfold pySplit
  cases hs : splitChar sep s.data with
  | nil => exact absurd hs (splitChar_ne_nil sep s.data)
  | cons h t => simp

theorem pySplit_empty (sep : Char) : pySplit sep "" = [""] := rfl

theorem pyJoinStr_take_data (sep : Char) (t : String) (n : Nat) :
    (pyJoinStr sep ((pySplit sep t).take n)).data
      = joinChar sep ((splitChar sep t.data).take n) := by
  unfold pyJoinStr pySplit
  rw [← List.map_take, data_mk_map]

theorem pySplit_of_join_take (sep : Char) (t : String) (n : Nat) (hn : 0 < n) :
    pySplit sep (pyJoinStr sep ((pySplit sep t).take n))
      = (pySplit sep t).take n := by
  have hdata := pyJoinStr_take_data sep t n
  unfold pySplit at *
  rw [hdata]
  have htake : (splitChar sep t.data).take n ≠ [] := by
    cases hs : splitChar sep t.data with
    | nil => exact absurd hs (splitChar_ne_nil sep t.data)
    | cons h l =>
      cases n with
      | zero => exact absurd hn (by simp)
      | succ m => simp
  rw [splitChar_joinChar sep _ htake
    (fun z hz => splitChar_no_sep sep t.data z (List.take_subset n _ hz))]
  rw [List.map_take]

/-- C4: for positive `n`, `_truncate_lines` returns the text unchanged
with `wasTruncated = false` when it has at most `n` newline-separated
segments, and otherwise exactly the first `n` segments re-joined with
newline and `wasTruncated = true`; it is idempotent at the same `n`, and
empty input passes through unchanged. -/
theorem C4_truncate_lines (t : String) (n : Nat) (hn : 0 < n) :
    ((pySplit '\n' t).length ≤ n → _truncate_lines t n = (t, false)) ∧
    (n < (pySplit '\n' t).length →
      _truncate_lines t n = (pyJoinStr '\n' ((pySplit '\n' t).take n), true)) ∧
    _truncate_lines (_truncate_lines t n).1 n = ((_truncate_lines t n).1, false) ∧
    _truncate_lines "" n = ("", false) := by
  have hle : ∀ s : String, (pySplit '\n' s).length ≤ n → _truncate_lines s n = (s, false) := by
    intro s hs
    by_cases h0 : s = ""
    · simp [_truncate_lines, h0]
    · simp [_truncate_lines, h0, hs]
  have hgt : n < (pySplit '\n' t).length →
      _truncate_lines t n = (pyJoinStr '\n' ((pySplit '\n' t).take n), true) := by
    intro h
    have h0 : t ≠ "" := by
      intro h0
      rw [h0, pySplit_empty] at h
      simp only [List.length_singleton] at h
      omega
    have hnle : ¬((pySplit '\n' t).length ≤ n) := not_le.mpr h
    simp [_truncate_lines, h0, hnle]
  refine ⟨hle t, hgt, ?_, hle "" (by rw [pySplit_empty]; simpa using hn)⟩
  by_cases h1 : (pySplit '\n' t).length ≤ n
  · rw [hle t h1]
    exact hle t h1
  · have h := hgt (not_le.mp h1)
    rw [h]
    apply hle
    rw [pySplit_of_join_take '\n' t n hn, List.length_take]
    omega

/-- C4 (witness): `C4_truncate_lines` at `t = "a\nb\nc"`, `n = 2`. -/
theorem C4_truncate_lines_witness :
    _truncate_lines "a\nb\nc" 2 = ("a\nb", true) ∧
    _truncate_lines (_truncate_lines "a\nb\nc" 2).1 2 = ((_truncate_lines "a\nb\nc" 2).1, false) ∧
    _truncate_lines "" 2 = ("", false) := by
  have h := C4_truncate_lines "a\nb\nc" 2 (by decide)
  refine ⟨?_, h.2.2.1, h.2.2.2⟩
  have h2 := h.2.1 (by decide)
  rw [h2]
  decide

theorem listStarts_append_left (a b s : List Char) (h : listStarts (a ++ b) s = true) :
    listStarts a s = true := by
  induction a generalizing s with
  | nil => rfl
  | cons c cs ih =>
    cases s with
    | nil => simp [listStarts] at h
    | cons d ds =>
      simp only [List.cons_append, listStarts, Bool.and_eq_true] at h ⊢
      exact ⟨h.1, ih ds h.2⟩

theorem string_data_append (a b : String) : (a ++ b).data = a.data ++ b.data := by
  cases a
  cases b
  rfl

/-- C1 (counterexample): the claim says every relative path resolving
outside the base directory is rejected, but `"../database"` joins and
normalizes to `/database` — a sibling of `/data`, outside it — and the
`startswith("/data")` check accepts it. -/
theorem C1_counterexample :
    confineTarget "../database" = "/database" ∧
    ¬ insideBase "/database" ∧
    confineOk "../database" = true :=
  ⟨by decide, by decide, by decide⟩

/-- C1 (amended): the confinement check shared by `list_files`,
`read_file`, `write_file`, `delete_file` and `run_command`'s `cwd` accepts
exactly those relative paths whose lexically normalized join has the base
directory's string as a character prefix. Every path resolving inside the
base directory is accepted and its resolution is prefixed by the base
directory, and every rejected path resolves outside; but a path resolving
to a sibling whose name extends the base directory string (such as
`"../database"` → `/database`) is wrongly accepted, so not every
outside-resolving path is rejected. -/
theorem C1_confinement_amended (p : String) :
    (insideBase (confineTarget p) →
      confineOk p = true ∧ pyStartsWith (confineTarget p) BASE_DIR = true) ∧
    (confineOk p = false → ¬ insideBase (confineTarget p)) := by
  have key : insideBase (confineTarget p) → pyStartsWith (confineTarget p) BASE_DIR = true := by
    intro h
    rcases h with h | h
    · rw [h]
      decide
    · unfold pyStartsWith at h ⊢
      rw [string_data_append] at h
      exact listStarts_append_left BASE_DIR.data "/".data (confineTarget p).data h
  constructor
  · intro h
    exact ⟨key h, key h⟩
  · intro h hin
    rw [show confineOk p = pyStartsWith (confineTarget p) BASE_DIR from rfl, key hin] at h
    simp at h

/-- C1 (witness): `C1_confinement_amended` at `p = "sub"`, which resolves
inside the base directory. -/
theorem C1_confinement_amended_witness :
    confineOk "sub" = true ∧ pyStartsWith (confineTarget "sub") BASE_DIR = true :=
  (C1_confinement_amended "sub").1 (by decide)

/-- C3 (counterexample): the claim says a supplied `timeout = -5` falls
back to the 60-second default, but the code resolves it to `None` — no
deadline at all. -/
theorem C3_counterexample :
    resolve_timeout_secs (some (-5)) none = none ∧
    resolve_timeout_secs (some (-5)) none ≠ some 60 :=
  ⟨by decide, by decide⟩

/-- C3 (amended): an explicit seconds timeout wins over an explicit
milliseconds `timeout_ms` (which is divided by 1000), supplying neither
yields the 60-second default, but a supplied value that resolves to ≤ 0
(e.g. `timeout = -5`) leaves `timeout_secs = None` — no deadline at all —
rather than falling back to 60 seconds. -/
theorem C3_deadline_resolution (mo : Option ℚ) (t m : ℚ) :
    resolve_timeout_secs none none = some 60 ∧
    (0 < t → resolve_timeout_secs (some t) mo = some t) ∧
    (t ≤ 0 → resolve_timeout_secs (some t) mo = none) ∧
    (0 < m → resolve_timeout_secs none (some m) = some (m / 1000)) ∧
    (m ≤ 0 → resolve_timeout_secs none (some m) = none) := by
  refine ⟨rfl, ?_, ?_, ?_, ?_⟩
  · intro h
    simp [resolve_timeout_secs, h]
  · intro h
    simp [resolve_timeout_secs, not_lt.mpr h]
  · intro h
    have hpos : 0 < m / 1000 := div_pos h (by norm_num)
    simp [resolve_timeout_secs, hpos]
  · intro h
    have hnp : ¬(0 < m / 1000) := not_lt.mpr (div_nonpos_iff.mpr (Or.inr ⟨h, by norm_num⟩))
    simp [resolve_timeout_secs, hnp]

/-- C3 (witness): `C3_deadline_resolution` at concrete inputs — both
supplied prefers seconds, neither supplied gives 60, milliseconds alone
are converted, and a non-positive seconds value yields no deadline. -/
theorem C3_deadline_resolution_witness :
    resolve_timeout_secs none none = some 60 ∧
    resolve_timeout_secs (some 5) (some 2000) = some 5 ∧
    resolve_timeout_secs none (some 2000) = some (2000 / 1000) ∧
    resolve_timeout_secs (some (-5)) (some 2000) = none := by
  have h := C3_deadline_resolution (some 2000) 5 2000
  have h2 := C3_deadline_resolution (some 2000) (-5) 2000
  exact ⟨h.1, h.2.1 (by norm_num), h.2.2.2.1 (by norm_num), h2.2.2.1 (by norm_num)⟩

/-- C2 (counterexample): the claim says both streams are reported as
empty strings on timeout, but the timeout result carries
`stderr = "Command timed out"`, which is not empty. -/
theorem C2_counterexample :
    run_command 1000 "sleep 5" none "" (some 1) none (.timedOut "" "") =
      .result { stdout := "", stderr := "Command timed out", exit_code := none,
                cwd := "/data", command := "sleep 5", timeout_seconds := some 1,
                timed_out := true, truncated := false, stdout_truncated := false,
                stderr_truncated := false, max_lines := 1000 } ∧
    "Command timed out" ≠ "" :=
  ⟨by decide, by decide⟩

/-- C2 (amended): every timed-out `run_command` returns `timed_out =
true`, `exit_code` absent, `stdout` empty and `stderr` equal to the fixed
message `"Command timed out"` (not empty), regardless of any partial
bytes captured before the kill. -/
theorem C2_timeout_result (ml : Nat) (cmd : String) (stdin : Option String) (cwd : String)
    (t m : Option ℚ) (pso pse : String)
    (hcwd : cwd = "" ∨ confineOk cwd = true) :
    run_command ml cmd stdin cwd t m (.timedOut pso pse) =
      .result { stdout := "", stderr := "Command timed out", exit_code := none,
                cwd := if cwd != "" then confineTarget cwd else BASE_DIR,
                command := cmd, timeout_seconds := resolve_timeout_secs t m,
                timed_out := true, truncated := false, stdout_truncated := false,
                stderr_truncated := false, max_lines := ml } := by
  rcases hcwd with h | h
  · subst h
    simp [run_command]
  · simp [run_command, h]

/-- C2 (witness): `C2_timeout_result` with partial output captured before
the kill — stdout is still reported empty and stderr is the fixed
message. -/
theorem C2_timeout_result_witness :
    run_command 1000 "sleep 5" none "" (some 1) none (.timedOut "partial out" "partial err") =
      .result { stdout := "", stderr := "Command timed out", exit_code := none,
                cwd := "/data", command := "sleep 5", timeout_seconds := some 1,
                timed_out := true, truncated := false, stdout_truncated := false,
                stderr_truncated := false, max_lines := 1000 } := by
  have h := C2_timeout_result 1000 "sleep 5" none "" (some 1) none
    "partial out" "partial err" (Or.inl rfl)
  rw [h]
  decide

/-- C5: in every `run_command` result, `timed_out = true` implies
`truncated = false`, `stdout_truncated = false` and
`stderr_truncated = false`: a timed-out run is never also reported as
truncated, however large the captured partial output. -/
theorem C5_timeout_never_truncated (ml : Nat) (cmd : String) (stdin : Option String)
    (cwd : String) (t m : Option ℚ) (outcome : RunOutcome) (r : CommandResult)
    (h : run_command ml cmd stdin cwd t m outcome = .result r)
    (ht : r.timed_out = true) :
    r.truncated = false ∧ r.stdout_truncated = false ∧ r.stderr_truncated = false := by
  unfold run_command at h
  by_cases hcond : ((cwd != "") && !(confineOk cwd)) = true
  · rw [if_pos hcond] at h
    exact absurd h (by simp)
  · rw [if_neg hcond] at h
    cases outcome with
    | spawnFailed msg => exact absurd h (by simp)
    | timedOut a b =>
      simp only [RCResponse.result.injEq] at h
      rw [← h]
      exact ⟨rfl, rfl, rfl⟩
    | completed code so se =>
      simp only [RCResponse.result.injEq] at h
      rw [← h] at ht
      simp at ht

/-- C5 (witness): `C5_timeout_never_truncated` on a timed-out run whose
partial stdout has more lines than the limit of 1. -/
theorem C5_timeout_never_truncated_witness :
    ({ stdout := "", stderr := "Command timed out", exit_code := none, cwd := "/data",
       command := "yes", timeout_seconds := some 1, timed_out := true, truncated := false,
       stdout_truncated := false, stderr_truncated := false,
       max_lines := 1 } : CommandResult).truncated = false ∧
    ({ stdout := "", stderr := "Command timed out", exit_code := none, cwd := "/data",
       command := "yes", timeout_seconds := some 1, timed_out := true, truncated := false,
       stdout_truncated := false, stderr_truncated := false,
       max_lines := 1 } : CommandResult).stdout_truncated = false ∧
    ({ stdout := "", stderr := "Command timed out", exit_code := none, cwd := "/data",
       command := "yes", timeout_seconds := some 1, timed_out := true, truncated := false,
       stdout_truncated := false, stderr_truncated := false,
       max_lines := 1 } : CommandResult).stderr_truncated = false :=
  C5_timeout_never_truncated 1 "yes" none "" (some 1) none (.timedOut "a\nb\nc\nd" "") _
    (by decide) (by decide)

/-- C6: a non-empty `cwd` that fails the confinement check short-circuits
`run_command` with an error result carrying the attempted caller-supplied
cwd; the response is the same for every possible subprocess outcome, so
no process is spawned. -/
theorem C6_cwd_short_circuit (ml : Nat) (cmd : String) (stdin : Option String)
    (cwd : String) (t m : Option ℚ) (outcome : RunOutcome)
    (h1 : cwd ≠ "") (h2 : confineOk cwd = false) :
    run_command ml cmd stdin cwd t m outcome =
      .cwdError "Cannot use cwd outside of the base directory" cwd := by
  have hb : (cwd != "") = true := by simpa using h1
  unfold run_command
  rw [if_pos (by rw [hb, h2]; rfl)]

/-- C6 (witness): `C6_cwd_short_circuit` at `cwd = ".."`, which resolves
to `/` outside the base directory. -/
theorem C6_cwd_short_circuit_witness :
    run_command 1000 "ls" none ".." none none (.completed 0 "" "") =
      .cwdError "Cannot use cwd outside of the base directory" ".." :=
  C6_cwd_short_circuit 1000 "ls" none ".." none none (.completed 0 "" "")
    (by decide) (by decide)

theorem parse_positive_pos (v : CfgVal) (n : Int) (h : _parse_positive_int v = some n) :
    0 < n := by
  cases v with
  | vint k =>
    simp only [_parse_positive_int] at h
    split at h
    · cases h
      assumption
    · cases h
  | vstr s =>
    simp only [_parse_positive_int] at h
    cases hp : pyInt (pyStrip s) with
    | none =>
      rw [hp] at h
      cases h
    | some k =>
      rw [hp] at h
      have h' : (if 0 < k then some k else (none : Option Int)) = some n := h
      by_cases hk : (0 : Int) < k
      · rw [if_pos hk] at h'
        have hv : k = n := Option.some.inj h'
        exact hv ▸ hk
      · rw [if_neg hk] at h'
        exact Option.noConfusion h'
  | vother => exact Option.noConfusion h

theorem parseOptVal_pos (o : Option CfgVal) (n : Int) (h : parseOptVal o = some n) :
    0 < n := by
  cases o with
  | none => exact Option.noConfusion h
  | some v => exact parse_positive_pos v n h

theorem load_cfg_pos (cfg : CfgFile) (n : Int)
    (h : _load_max_lines_from_config_file cfg = some n) : 0 < n := by
  cases cfg with
  | absent => exact Option.noConfusion h
  | nondict => exact Option.noConfusion h
  | dict rc ml =>
    cases rc with
    | none => exact parseOptVal_pos ml n h
    | some rcf =>
      cases rcf with
      | nondict => exact parseOptVal_pos ml n h
      | dict mlrc =>
        simp only [_load_max_lines_from_config_file] at h
        cases hp : parseOptVal mlrc with
        | none =>
          rw [hp] at h
          exact parseOptVal_pos ml n h
        | some v =>
          rw [hp] at h
          have hv : v = n := Option.some.inj h
          exact hv ▸ parseOptVal_pos mlrc v hp

theorem envLayer_pos (env : Option String) (n : Int)
    (h : env.bind (fun s => _parse_positive_int (.vstr s)) = some n) : 0 < n := by
  cases env with
  | none => exact Option.noConfusion h
  | some s => exact parse_positive_pos (.vstr s) n h

theorem load_eq_layers (cfg : CfgFile) :
    _load_max_lines_from_config_file cfg =
      Option.orElse (cfgNestedLayer cfg) (fun _ => cfgTopLayer cfg) := by
  cases cfg with
  | absent => rfl
  | nondict => rfl
  | dict rc ml =>
    cases rc with
    | none => rfl
    | some rcf =>
      cases rcf with
      | nondict => rfl
      | dict mlrc =>
        cases hp : parseOptVal mlrc with
        | none =>
          simp [_load_max_lines_from_config_file, cfgNestedLayer, cfgTopLayer, hp,
            Option.orElse]
        | some v =>
          simp [_load_max_lines_from_config_file, cfgNestedLayer, cfgTopLayer, hp,
            Option.orElse]

theorem nested_layer_pos (cfg : CfgFile) (n : Int) (h : cfgNestedLayer cfg = some n) :
    0 < n := by
  cases cfg with
  | absent => exact Option.noConfusion h
  | nondict => exact Option.noConfusion h
  | dict rc ml =>
    cases rc with
    | none => exact Option.noConfusion h
    | some rcf =>
      cases rcf with
      | nondict => exact Option.noConfusion h
      | dict mlrc => exact parseOptVal_pos mlrc n h

theorem top_layer_pos (cfg : CfgFile) (n : Int) (h : cfgTopLayer cfg = some n) :
    0 < n := by
  cases cfg with
  | absent => exact Option.noConfusion h
  | nondict => exact Option.noConfusion h
  | dict rc ml => exact parseOptVal_pos ml n h

/-- C7: the output-line limit resolves by walking, in order, environment
variable `RUN_COMMAND_MAX_LINES`, environment variable
`MAX_OUTPUT_LINES`, the config file's nested `run_command.max_lines`, its
top-level `max_lines`, and the built-in default 1000; a missing,
malformed or non-positive value at any layer falls through to the next,
and the resolved limit is always positive. -/
theorem C7_config_resolution (env1 env2 : Option String) (cfg : CfgFile) :
    _resolve_max_output_lines env1 env2 cfg = specResolveMaxLines env1 env2 cfg ∧
    0 < _resolve_max_output_lines env1 env2 cfg := by
  have hspec : specResolveMaxLines env1 env2 cfg =
      ((env1.bind (fun s => _parse_positive_int (.vstr s))).orElse (fun _ =>
        (env2.bind (fun s => _parse_positive_int (.vstr s))).orElse (fun _ =>
          (cfgNestedLayer cfg).orElse (fun _ =>
            (cfgTopLayer cfg).orElse (fun _ => (none : Option Int)))))).getD 1000 := rfl
  rw [hspec]
  unfold _resolve_max_output_lines
  cases h1 : env1.bind (fun s => _parse_positive_int (.vstr s)) with
  | some v => exact ⟨rfl, envLayer_pos env1 v h1⟩
  | none =>
    cases h2 : env2.bind (fun s => _parse_positive_int (.vstr s)) with
    | some v => exact ⟨rfl, envLayer_pos env2 v h2⟩
    | none =>
      rw [load_eq_layers cfg]
      cases hn : cfgNestedLayer cfg with
      | some w => exact ⟨rfl, nested_layer_pos cfg w hn⟩
      | none =>
        cases ht : cfgTopLayer cfg with
        | some w => exact ⟨rfl, top_layer_pos cfg w ht⟩
        | none => exact ⟨rfl, by decide⟩

theorem listStarts_append_right (a s t : List Char) (h : listStarts a s = true) :
    listStarts a (s ++ t) = true := by
  induction a generalizing s with
  | nil => rfl
  | cons c cs ih =>
    cases s with
    | nil => simp [listStarts] at h
    | cons d ds =>
      simp only [List.cons_append, listStarts, Bool.and_eq_true] at h ⊢
      exact ⟨h.1, ih ds h.2⟩

theorem lookupFile_none (fs : FS) (t : String) (h : fs.isFile t = false) :
    fs.lookupFile t = none := by
  unfold FS.lookupFile
  have hfind : fs.files.find? (fun e => e.1 == t) = none := by
    rw [List.find?_eq_none]
    intro x hx hpx
    have hany : fs.files.any (fun e => e.1 == t) = true := by
      rw [List.any_eq_true]
      exact ⟨x, hx, hpx⟩
    unfold FS.isFile at h
    rw [hany] at h
    exact Bool.noConfusion h
  rw [hfind]
  rfl

/-- C8: for every confined path, `delete_file` reports a not-found error
when the target does not exist, fails with an error and leaves the state
unchanged when the target is a non-empty directory (deletion is not
recursive), removes an empty directory, and otherwise removes the file. -/
theorem C8_delete_file (fs : FS) (p : String) (hc : confineOk p = true) :
    (fs.pathExists (confineTarget p) = false →
      delete_file fs p = (fs, "Error: File does not exist: " ++ p)) ∧
    (fs.isDir (confineTarget p) = true → fs.hasChild (confineTarget p) = true →
      (delete_file fs p).1 = fs ∧
      pyStartsWith (delete_file fs p).2 "Error" = true) ∧
    (fs.isDir (confineTarget p) = true → fs.hasChild (confineTarget p) = false →
      delete_file fs p =
        ({ fs with dirs := fs.dirs.filter (fun d => !(d == confineTarget p)) },
         "Successfully deleted directory: " ++ p)) ∧
    (fs.pathExists (confineTarget p) = true → fs.isDir (confineTarget p) = false →
      delete_file fs p =
        ({ fs with files := fs.files.filter (fun e => !(e.1 == confineTarget p)) },
         "Successfully deleted file: " ++ p)) := by
  refine ⟨?_, ?_, ?_, ?_⟩
  · intro hne
    simp [delete_file, hc, hne]
  · intro hd hch
    have hex : fs.pathExists (confineTarget p) = true := by
      unfold FS.pathExists
      rw [hd, Bool.or_true]
    refine ⟨by simp [delete_file, hc, hex, hd, hch], ?_⟩
    have hmsg : (delete_file fs p).2 =
        "Error deleting file: [Errno 39] Directory not empty: " ++ pyQuote (confineTarget p) := by
      simp [delete_file, hc, hex, hd, hch]
    rw [hmsg]
    unfold pyStartsWith
    rw [string_data_append]
    exact listStarts_append_right "Error".data
      "Error deleting file: [Errno 39] Directory not empty: ".data _ (by decide)
  · intro hd hch
    have hex : fs.pathExists (confineTarget p) = true := by
      unfold FS.pathExists
      rw [hd, Bool.or_true]
    simp [delete_file, hc, hex, hd, hch]
  · intro hex hd
    simp [delete_file, hc, hex, hd]

/-- C8 (witness): `C8_delete_file` on a missing target, a non-empty
directory, an empty directory, and a regular file. -/
theorem C8_delete_file_witness :
    delete_file ⟨[], []⟩ "x" = (⟨[], []⟩, "Error: File does not exist: x") ∧
    (delete_file ⟨[("/data/d/f", "z")], ["/data/d"]⟩ "d").1 =
      ⟨[("/data/d/f", "z")], ["/data/d"]⟩ ∧
    delete_file ⟨[], ["/data/d"]⟩ "d" = (⟨[], []⟩, "Successfully deleted directory: d") ∧
    delete_file ⟨[("/data/a.txt", "hi")], []⟩ "a.txt" =
      (⟨[], []⟩, "Successfully deleted file: a.txt") := by
  refine ⟨?_, ?_, ?_, ?_⟩
  · exact ((C8_delete_file ⟨[], []⟩ "x" (by decide)).1 (by decide)).trans (by decide)
  · exact ((C8_delete_file ⟨[("/data/d/f", "z")], ["/data/d"]⟩ "d" (by decide)).2.1
      (by decide) (by decide)).1
  · exact ((C8_delete_file ⟨[], ["/data/d"]⟩ "d" (by decide)).2.2.1
      (by decide) (by decide)).trans (by decide)
  · exact ((C8_delete_file ⟨[("/data/a.txt", "hi")], []⟩ "a.txt" (by decide)).2.2.2
      (by decide) (by decide)).trans (by decide)

/-- C10: for every confined path, `read_file` produces the identical
error string whether the target does not exist at all or exists as a
directory — the two failure causes are merged into one indistinguishable
message. -/
theorem C10_read_merged_errors (fs1 fs2 : FS) (p : String)
    (hc : confineOk p = true)
    (h1 : fs1.pathExists (confineTarget p) = false)
    (h2d : fs2.isDir (confineTarget p) = true)
    (h2f : fs2.isFile (confineTarget p) = false) :
    read_file fs1 p = "Error: File does not exist or is not a file: " ++ p ∧
    read_file fs2 p = "Error: File does not exist or is not a file: " ++ p := by
  have h1f : fs1.isFile (confineTarget p) = false := by
    unfold FS.pathExists at h1
    exact (Bool.or_eq_false_iff.mp h1).1
  have hl1 : fs1.lookupFile (confineTarget p) = none := lookupFile_none fs1 _ h1f
  have hl2 : fs2.lookupFile (confineTarget p) = none := lookupFile_none fs2 _ h2f
  constructor
  · simp [read_file, hc, hl1]
  · simp [read_file, hc, hl2]

/-- C10 (witness): `C10_read_merged_errors` where the target is missing
in one snapshot and a directory in the other — the two replies coincide. -/
theorem C10_read_merged_errors_witness :
    read_file ⟨[], []⟩ "somedir" = "Error: File does not exist or is not a file: somedir" ∧
    read_file ⟨[], ["/data/somedir"]⟩ "somedir" =
      "Error: File does not exist or is not a file: somedir" := by
  have h := C10_read_merged_errors ⟨[], []⟩ ⟨[], ["/data/somedir"]⟩ "somedir"
    (by decide) (by decide) (by decide) (by decide)
  exact ⟨h.1.trans (by decide), h.2.trans (by decide)⟩

theorem mem_dropLast_mem {α : Type} (l : List α) (x : α) (h : x ∈ l.dropLast) : x ∈ l := by
  induction l with
  | nil => simp at h
  | cons a as ih =>
    cases as with
    | nil => simp [List.dropLast] at h
    | cons b bs =>
      have hd : (a :: b :: bs).dropLast = a :: (b :: bs).dropLast := rfl
      rw [hd] at h
      rcases List.mem_cons.mp h with h1 | h1
      · rw [h1]
        exact List.mem_cons_self a _
      · exact List.mem_cons_of_mem a (ih h1)

theorem dropWhile_length_le {α : Type} (p : α → Bool) (l : List α) :
    (l.dropWhile p).length ≤ l.length := by
  induction l with
  | nil => exact Nat.le_refl 0
  | cons a as ih =>
    cases hpa : p a with
    | true =>
      simp only [List.dropWhile, hpa]
      exact Nat.le_trans ih (Nat.le_succ _)
    | false =>
      simp only [List.dropWhile, hpa]
      exact Nat.le_refl _

theorem getLastQ_append {α : Type} (as bs : List α) (hb : bs ≠ []) :
    (as ++ bs).getLast? = bs.getLast? := by
  induction as with
  | nil => rfl
  | cons a as ih =>
    have hne : as ++ bs ≠ [] := by
      intro hcontra
      exact hb (List.append_eq_nil.mp hcontra).2
    cases hcase : as ++ bs with
    | nil => exact absurd hcase hne
    | cons b bs' =>
      rw [List.cons_append, hcase]
      have hstep : (a :: b :: bs').getLast? = (b :: bs').getLast? := rfl
      rw [hstep, ← hcase, ih]

theorem mem_of_getLastQ {α : Type} (l : List α) (a : α) (h : l.getLast? = some a) : a ∈ l := by
  induction l with
  | nil => exact Option.noConfusion h
  | cons x xs ih =>
    cases xs with
    | nil =>
      have hx : x = a := Option.some.inj h
      rw [hx]
      exact List.mem_cons_self a []
    | cons y ys =>
      have h' : (y :: ys).getLast? = some a := h
      exact List.mem_cons_of_mem x (ih h')

theorem normStep_preserve (b : Bool) (acc : List String) (c : String)
    (hacc : ∀ e ∈ acc, e.data ≠ [] ∧ '/' ∉ e.data) (hc : '/' ∉ c.data) :
    ∀ e ∈ normStep b acc c, e.data ≠ [] ∧ '/' ∉ e.data := by
  intro e he
  unfold normStep at he
  split at he
  · exact hacc e he
  · rename_i hA
    split at he
    · rcases List.mem_append.mp he with h | h
      · exact hacc e h
      · have hce : e = c := List.mem_singleton.mp h
        subst hce
        refine ⟨?_, hc⟩
        intro hnil
        have he0 : e = "" := string_data_eq_nil hnil
        simp [he0] at hA
    · split at he
      · exact hacc e (mem_dropLast_mem acc e he)
      · exact hacc e he

theorem normStep_fold_inv (b : Bool) (comps : List String) (acc : List String)
    (hacc : ∀ e ∈ acc, e.data ≠ [] ∧ '/' ∉ e.data)
    (hcomps : ∀ e ∈ comps, '/' ∉ e.data) :
    ∀ e ∈ comps.foldl (normStep b) acc, e.data ≠ [] ∧ '/' ∉ e.data := by
  induction comps generalizing acc with
  | nil => exact hacc
  | cons c cs ih =>
    have hstep := normStep_preserve b acc c hacc (hcomps c (List.mem_cons_self c cs))
    exact ih (normStep b acc c) hstep (fun e he => hcomps e (List.mem_cons_of_mem c he))

theorem joinChar_shape (sep : Char) (L : List (List Char)) (hL : L ≠ [])
    (hel : ∀ x ∈ L, x ≠ [] ∧ sep ∉ x) :
    joinChar sep L ≠ [] ∧ ∀ c, (joinChar sep L).getLast? = some c → c ≠ sep := by
  induction L with
  | nil => exact absurd rfl hL
  | cons x xs ih =>
    cases xs with
    | nil =>
      have hx := hel x (List.mem_cons_self x [])
      refine ⟨hx.1, ?_⟩
      intro c hcl hcs
      apply hx.2
      rw [← hcs]
      exact mem_of_getLastQ x c hcl
    | cons y ys =>
      have hxs : ∀ z ∈ y :: ys, z ≠ [] ∧ sep ∉ z :=
        fun z hz => hel z (List.mem_cons_of_mem x hz)
      have hrec := ih (by simp) hxs
      have hj : joinChar sep (x :: y :: ys) = x ++ sep :: joinChar sep (y :: ys) := rfl
      constructor
      · rw [hj]
        intro hcontra
        exact absurd (List.append_eq_nil.mp hcontra).2 (by simp)
      · intro c hcl
        rw [hj, getLastQ_append x (sep :: joinChar sep (y :: ys)) (by simp)] at hcl
        cases hcase : joinChar sep (y :: ys) with
        | nil => exact absurd hcase hrec.1
        | cons d ds =>
          rw [hcase] at hcl
          have hstep : (sep :: d :: ds).getLast? = (d :: ds).getLast? := rfl
          rw [hstep] at hcl
          refine hrec.2 c ?_
          rw [hcase]
          exact hcl

theorem res_shape (k : Nat) (L : List String) (hk : k ≤ 2)
    (hel : ∀ e ∈ L, e.data ≠ [] ∧ '/' ∉ e.data)
    (h : pyStartsWith
      (if String.mk (List.replicate k '/') ++ pyJoinStr '/' L = "" then "."
       else String.mk (List.replicate k '/') ++ pyJoinStr '/' L) BASE_DIR = true) :
    ((if String.mk (List.replicate k '/') ++ pyJoinStr '/' L = "" then "."
      else String.mk (List.replicate k '/') ++ pyJoinStr '/' L) : String).data ≠ [] ∧
    ∀ c, ((if String.mk (List.replicate k '/') ++ pyJoinStr '/' L = "" then "."
      else String.mk (List.replicate k '/') ++ pyJoinStr '/' L) : String).data.getLast?
        = some c → c ≠ '/' := by
  cases L with
  | nil =>
    interval_cases k
    · exact absurd h (by decide)
    · exact absurd h (by decide)
    · exact absurd h (by decide)
  | cons e es =>
    have hmap : ∀ y ∈ (e :: es).map String.data, y ≠ [] ∧ '/' ∉ y := by
      intro y hy
      rcases List.mem_map.mp hy with ⟨z, hz, hzy⟩
      rw [← hzy]
      exact hel z hz
    have hjoin := joinChar_shape '/' ((e :: es).map String.data) (by simp) hmap
    have hdata : (String.mk (List.replicate k '/') ++ pyJoinStr '/' (e :: es)).data
        = List.replicate k '/' ++ joinChar '/' ((e :: es).map String.data) := by
      rw [string_data_append]
      rfl
    have hne : String.mk (List.replicate k '/') ++ pyJoinStr '/' (e :: es) ≠ "" := by
      intro hcontra
      have : (String.mk (List.replicate k '/') ++ pyJoinStr '/' (e :: es)).data = [] := by
        rw [hcontra]
      rw [hdata] at this
      exact hjoin.1 (List.append_eq_nil.mp this).2
    rw [if_neg hne] at h ⊢
    refine ⟨?_, ?_⟩
    · intro hcontra
      rw [hdata] at hcontra
      exact hjoin.1 (List.append_eq_nil.mp hcontra).2
    · intro c hcl
      rw [hdata, getLastQ_append _ _ hjoin.1] at hcl
      exact hjoin.2 c hcl

theorem normpath_inside_shape (x : String) (h : pyStartsWith (normpath x) BASE_DIR = true) :
    (normpath x).data ≠ [] ∧ ∀ c, (normpath x).data.getLast? = some c → c ≠ '/' := by
  by_cases hx : x = ""
  · rw [hx] at h
    exact absurd h (by decide)
  · have hk : (if pyStartsWith x "/" then
        if pyStartsWith x "//" && !(pyStartsWith x "///") then 2 else 1 else 0) ≤ 2 := by
      split
      · split
        · exact Nat.le_refl 2
        · exact Nat.le_of_lt (by omega)
      · exact Nat.zero_le 2
    have hfold := normStep_fold_inv
      ((if pyStartsWith x "/" then
        if pyStartsWith x "//" && !(pyStartsWith x "///") then 2 else 1 else 0) != 0)
      (pySplit '/' x) [] (by intro e he; simp at he)
      (by
        intro e he
        unfold pySplit at he
        rcases List.mem_map.mp he with ⟨z, hz, hze⟩
        rw [← hze]
        exact splitChar_no_sep '/' x.data z hz)
    have hnp : normpath x =
        (if String.mk (List.replicate (if pyStartsWith x "/" then
            if pyStartsWith x "//" && !(pyStartsWith x "///") then 2 else 1 else 0) '/')
          ++ pyJoinStr '/' ((pySplit '/' x).foldl (normStep
            ((if pyStartsWith x "/" then
              if pyStartsWith x "//" && !(pyStartsWith x "///") then 2 else 1 else 0) != 0)) [])
          = "" then "."
         else String.mk (List.replicate (if pyStartsWith x "/" then
            if pyStartsWith x "//" && !(pyStartsWith x "///") then 2 else 1 else 0) '/')
          ++ pyJoinStr '/' ((pySplit '/' x).foldl (normStep
            ((if pyStartsWith x "/" then
              if pyStartsWith x "//" && !(pyStartsWith x "///") then 2 else 1 else 0) != 0)) [])) := by
      unfold normpath
      rw [if_neg hx]
    rw [hnp] at h ⊢
    exact res_shape _ _ hk hfold h

theorem rstripChar_length_le (c : Char) (l : List Char) :
    (rstripChar c l).length ≤ l.length := by
  unfold rstripChar
  rw [List.length_reverse]
  calc (l.reverse.dropWhile (fun d => d == c)).length
      ≤ l.reverse.length := dropWhile_length_le _ _
    _ = l.length := List.length_reverse l

theorem dirname_length_le (p : String) : (dirname p).data.length ≤ p.data.length := by
  simp only [dirname]
  split
  · rw [List.length_take]
    exact Nat.min_le_right _ _
  · refine Nat.le_trans (rstripChar_length_le _ _) ?_
    rw [List.length_take]
    exact Nat.min_le_right _ _

theorem dirname_length_lt (p : String) (hne : p.data ≠ [])
    (hlast : ∀ c, p.data.getLast? = some c → c ≠ '/') :
    (dirname p).data.length < p.data.length := by
  have hpos : 0 < p.data.length := List.length_pos.mpr hne
  have hafter : 1 ≤ (p.data.reverse.takeWhile (fun c => !(c == '/'))).length := by
    cases hr : p.data.reverse with
    | nil =>
      have : p.data = [] := by
        rw [← List.reverse_reverse p.data, hr]
        rfl
      exact absurd this hne
    | cons c t =>
      have hcq : p.data.getLast? = some c := by
        rw [← List.head?_reverse, hr]
        rfl
      have hcs : c ≠ '/' := hlast c hcq
      simp [List.takeWhile_cons, hcs]
  have hhead : (p.data.take (p.data.length
      - (p.data.reverse.takeWhile (fun c => !(c == '/'))).length)).length
      ≤ p.data.length - 1 := by
    rw [List.length_take]
    omega
  simp only [dirname]
  split
  · omega
  · have hrs := rstripChar_length_le '/'
      (p.data.take (p.data.length
        - (p.data.reverse.takeWhile (fun c => !(c == '/'))).length))
    omega

theorem mem_ancestorsAux_length (n : Nat) (p a : String) (ha : a ∈ ancestorsAux n p) :
    a.data.length ≤ p.data.length := by
  induction n generalizing p with
  | zero => exact absurd ha (by simp [ancestorsAux])
  | succ m ih =>
    unfold ancestorsAux at ha
    split at ha
    · exact absurd ha (by simp)
    · rcases List.mem_cons.mp ha with h | h
      · subst h
        exact Nat.le_refl _
      · exact Nat.le_trans (ih (dirname p) h) (dirname_length_le p)

theorem findQ_append_none {α : Type} (pred : α → Bool) (l1 l2 : List α)
    (h : l1.find? pred = none) : (l1 ++ l2).find? pred = l2.find? pred := by
  induction l1 with
  | nil => rfl
  | cons a as ih =>
    cases hpa : pred a with
    | true =>
      rw [List.find?_cons_of_pos as hpa] at h
      exact Option.noConfusion h
    | false =>
      rw [List.find?_cons_of_neg as (by simp [hpa])] at h
      rw [List.cons_append, List.find?_cons_of_neg _ (by simp [hpa])]
      exact ih h

/-- C9: for every confined file path whose parent-directory chain holds
no regular file and whose target is not an existing directory,
`write_file` creates the missing intermediate directories and writes
(overwrites) the file, and a subsequent `read_file` of the same path
returns exactly the written content. -/
theorem C9_write_read_roundtrip (fs : FS) (p c : String)
    (hc : confineOk p = true)
    (hparents : ∀ a ∈ pathAncestors (dirname (confineTarget p)), fs.isFile a = false)
    (hnd : fs.isDir (confineTarget p) = false) :
    (write_file fs p c).2 = "Successfully wrote to " ++ p ∧
    read_file (write_file fs p c).1 p = c := by
  have hshape : (confineTarget p).data ≠ [] ∧
      ∀ ch, (confineTarget p).data.getLast? = some ch → ch ≠ '/' :=
    normpath_inside_shape (posixJoin BASE_DIR p) hc
  have hlt := dirname_length_lt (confineTarget p) hshape.1 hshape.2
  have hmem_ne : ∀ a ∈ pathAncestors (dirname (confineTarget p)), a ≠ confineTarget p := by
    intro a ha hcontra
    have hlen := mem_ancestorsAux_length _ _ a ha
    rw [hcontra] at hlen
    omega
  have hchain : (pathAncestors (dirname (confineTarget p))).any (fun a => fs.isFile a)
      = false := by
    rw [List.any_eq_false]
    intro a ha
    rw [hparents a ha]
    simp
  have hnd1 : (FS.mk fs.files (fs.dirs ++ (pathAncestors (dirname (confineTarget p))).filter
      (fun a => !(fs.pathExists a)))).isDir (confineTarget p) = false := by
    unfold FS.isDir
    rw [List.any_append, Bool.or_eq_false_iff]
    refine ⟨hnd, ?_⟩
    rw [List.any_eq_false]
    intro a ha
    have hmem := (List.mem_filter.mp ha).1
    simp [hmem_ne a hmem]
  have hlook : (FS.mk (fs.files.filter (fun e => !(e.1 == confineTarget p))
      ++ [(confineTarget p, c)])
      (fs.dirs ++ (pathAncestors (dirname (confineTarget p))).filter
        (fun a => !(fs.pathExists a)))).lookupFile (confineTarget p) = some c := by
    unfold FS.lookupFile
    have hnone : (fs.files.filter (fun e => !(e.1 == confineTarget p))).find?
        (fun e => e.1 == confineTarget p) = none := by
      rw [List.find?_eq_none]
      intro x hx
      have hxf := (List.mem_filter.mp hx).2
      simp at hxf ⊢
      exact hxf
    rw [findQ_append_none _ _ _ hnone, List.find?_cons_of_pos _ (by simp)]
    rfl
  constructor
  · simp [write_file, hc, hchain, hnd1]
  · have h1 : (write_file fs p c).1 =
        FS.mk (fs.files.filter (fun e => !(e.1 == confineTarget p)) ++ [(confineTarget p, c)])
          (fs.dirs ++ (pathAncestors (dirname (confineTarget p))).filter
            (fun a => !(fs.pathExists a))) := by
      simp [write_file, hc, hchain, hnd1]
    rw [h1]
    simp [read_file, hc, hlook]

/-- C9 (witness): `C9_write_read_roundtrip` writing `"hello"` to
`sub/dir/new.txt` in a snapshot holding only the base directory. -/
theorem C9_write_read_roundtrip_witness :
    (write_file ⟨[], ["/data"]⟩ "sub/dir/new.txt" "hello").2 =
      "Successfully wrote to sub/dir/new.txt" ∧
    read_file (write_file ⟨[], ["/data"]⟩ "sub/dir/new.txt" "hello").1 "sub/dir/new.txt" =
      "hello" := by
  have h := C9_write_read_roundtrip ⟨[], ["/data"]⟩ "sub/dir/new.txt" "hello"
    (by decide) (by decide) (by decide)
  exact ⟨h.1.trans (by decide), h.2⟩

